import Mathlib

/-!
Shallow embedding of the vectordb query-execution core (a BusTub-derived
engine with vector extensions) and proofs about it.

Embedded components, each translated from the named source file:
* the vector distance kernel `ComputeDistance` and its optional memoization
  cache (src/vectordb/src/include/execution/expressions/vector_expression.h,
  src/vectordb/src/common/config.cpp);
* `VectorExpression::Evaluate` (same header);
* `ExecutionEngine::Execute` (execution_engine.h);
* the table heap forward iterator (src/vectordb/src/storage/table/table_iterator.cpp)
  and `SeqScanExecutor` (src/vectordb/src/execution/seq_scan_executor.cpp);
* `NestedLoopJoinExecutor` (src/vectordb/src/execution/nested_loop_join_executor.cpp);
* `Planner::PlanBaseTableRef` (src/vectordb/src/planner/plan_table_ref.cpp).

Machine doubles are embedded as real numbers; machine integers as `Int`/`Nat`.
`SIMD_ENABLED`, `CACHE_ENABLED` and `PARALLEL_ENABLED` default to `false`
(config.cpp); the scalar loops are the embedded paths, and the cache flag is
kept as an explicit parameter.
-/

namespace VecDB

/-- Page identifier (`page_id_t`): a 32-bit signed integer, embedded as `Int`. -/
abbrev PageId := Int

/-- Sentinel `INVALID_PAGE_ID = -1` from common/config.h. -/
def INVALID_PAGE_ID : PageId := -1

/-- Record identifier `RID = (page_id, slot_num)` (common/rid.h). -/
structure RID where
  pageId : PageId
  slot : Nat
deriving DecidableEq, Repr

/-- Tuple metadata header from storage/table/tuple.h: a timestamp and a
tombstone flag. -/
structure TupleMeta where
  ts : Int
  is_deleted : Bool
deriving DecidableEq, Repr

/-- SQL type tags from type/type_id.h. -/
inductive TypeId
  | INVALID
  | BOOLEAN
  | TINYINT
  | SMALLINT
  | INTEGER
  | BIGINT
  | DECIMAL
  | VARCHAR
  | TIMESTAMP
  | VECTOR
deriving DecidableEq, Repr

/-- Tagged SQL value (type/value.h, not under the sources; the variants are
fixed by the spec's data model: null, bool, integer family, decimal, varchar,
vector).  Only the payloads the embedded code inspects are carried. -/
inductive Value
  | nullOf (t : TypeId)
  | boolean (b : Bool)
  | integer (n : Int)
  | decimal (d : ℝ)
  | varchar (s : List Char)
  | vector (v : List ℝ)

/-- Null test on a value (`Value::IsNull`). -/
def Value.IsNull : Value → Bool
  | .nullOf _ => true
  | _ => false

/-- Reading a boolean out of a value (`Value::GetAs<bool>`); the executors
only apply it to boolean predicate results. -/
def Value.GetAsBool : Value → Bool
  | .boolean b => b
  | _ => false

/-- A tuple is embedded as its row of values; `Tuple::GetValue` is positional
lookup. -/
abbrev Tuple := List Value

/-- Default value used for out-of-range positional reads in the embedding. -/
def defaultVal : Value := Value.nullOf TypeId.INVALID

/-- Modelled from the spec: the error taxonomy of §7 (common/exception.h is
not among the sources).  `ExecutionAborted` is the kind the spec names for the
exception the execution engine catches (`ExecutionException` in the engine's
code); the other kinds are as listed in §7. -/
inductive VdbError
  | TypeMismatch
  | SchemaMismatch
  | NotImplemented (msg : String)
  | NotFound
  | AlreadyExists
  | Conflict
  | ExecutionAborted
  | Invariant (msg : String)
  | Exception (msg : String)
deriving DecidableEq, Repr

/-! ## Vector distance kernel (vector_expression.h) -/

/-- Distance function selector (`VectorExpressionType`). -/
inductive VectorExpressionType
  | L2Dist
  | InnerProduct
  | CosineSimilarity
deriving DecidableEq, Repr

/-- The L2 accumulation loop of `ComputeDistance` (scalar path):
`for i in [0, sz): diff = left[i] - right[i]; dist += diff * diff`. -/
noncomputable def l2SumLoop (left right : List ℝ) : ℝ :=
  (List.range left.length).foldl
    (fun dist i => dist + (left.getD i 0 - right.getD i 0) * (left.getD i 0 - right.getD i 0)) 0

/-- The inner-product accumulation loop of `ComputeDistance` (scalar path):
`for i in [0, sz): dist += left[i] * right[i]`. -/
noncomputable def ipSumLoop (left right : List ℝ) : ℝ :=
  (List.range left.length).foldl
    (fun dist i => dist + left.getD i 0 * right.getD i 0) 0

/-- The cosine accumulation loop of `ComputeDistance` (scalar path), which
folds the three accumulators `(dist, norma, normb)` in one pass. -/
noncomputable def cosineLoops (left right : List ℝ) : ℝ × ℝ × ℝ :=
  (List.range left.length).foldl
    (fun acc i =>
      (acc.1 + left.getD i 0 * right.getD i 0,
       acc.2.1 + left.getD i 0 * left.getD i 0,
       acc.2.2 + right.getD i 0 * right.getD i 0))
    (0, 0, 0)

/-- The process-wide `distance_cache` (config.cpp): a map from vector pairs to
doubles, embedded as an association list where the most recent write wins. -/
abbrev DistCache := List ((List ℝ × List ℝ) × ℝ)

open Classical in
/-- Lookup in the distance cache (`distance_cache.find(key)`). -/
noncomputable def cacheFind (c : DistCache) (k : List ℝ × List ℝ) : Option ℝ :=
  match c with
  | [] => none
  | e :: rest => if e.1 = k then some e.2 else cacheFind rest k

/-- The two cache assignments done after a computed distance:
`distance_cache[{left, right}] = v; distance_cache[{right, left}] = v`. -/
def cacheStore (c : DistCache) (left right : List ℝ) (v : ℝ) : DistCache :=
  ((right, left), v) :: ((left, right), v) :: c

/-- `ComputeDistance(left, right, dist_fn)` from vector_expression.h, with the
global cache state made explicit.  The probe happens before the size check,
exactly as in the source.  The size assertion `vdbms_ASSERT(sz == right.size())`
is embedded as the spec's `TypeMismatch` failure (§7 classifies vector
dimension mismatch as `TypeMismatch`; common/macros.h is not among the
sources).  The scalar loops are the embedded accumulation paths
(`SIMD_ENABLED` is `false` in config.cpp). -/
noncomputable def ComputeDistance (cacheEnabled : Bool) (cache : DistCache)
    (left right : List ℝ) (dist_fn : VectorExpressionType) :
    Except VdbError (ℝ × DistCache) :=
  let probe := if cacheEnabled then cacheFind cache (left, right) else none
  match probe with
  | some cached => .ok (cached, cache)
  | none =>
    if left.length = right.length then
      match dist_fn with
      | .L2Dist =>
        let dist := l2SumLoop left right
        .ok (Real.sqrt dist,
             if cacheEnabled then cacheStore cache left right (Real.sqrt dist) else cache)
      | .InnerProduct =>
        let dist := ipSumLoop left right
        .ok (-dist,
             if cacheEnabled then cacheStore cache left right (-dist) else cache)
      | .CosineSimilarity =>
        let acc := cosineLoops left right
        let similarity := acc.1 / Real.sqrt (acc.2.1 * acc.2.2)
        .ok (1 - similarity,
             if cacheEnabled then cacheStore cache left right (1 - similarity) else cache)
    else .error VdbError.TypeMismatch

/-- The cache-miss result of `ComputeDistance` for each distance function
(the value each branch of the `switch` returns). -/
noncomputable def pureDistance (a b : List ℝ) : VectorExpressionType → ℝ
  | .L2Dist => Real.sqrt (l2SumLoop a b)
  | .InnerProduct => -(ipSumLoop a b)
  | .CosineSimilarity =>
    1 - (cosineLoops a b).1 / Real.sqrt ((cosineLoops a b).2.1 * (cosineLoops a b).2.2)

/-- Modelled from the spec: `Value::GetVector` (type/value.cpp is not among
the sources); §4.2/§7 make a non-vector operand of a vector distance
expression fail with `TypeMismatch`. -/
def Value.GetVector : Value → Except VdbError (List ℝ)
  | .vector v => .ok v
  | _ => .error VdbError.TypeMismatch

/-- `VectorExpression::Evaluate` / `PerformComputation` from
vector_expression.h: evaluate both children (their results are passed in as
`lhs`, `rhs`), extract the vectors, compute the distance, and wrap it as a
decimal value. -/
noncomputable def VectorExpression.Evaluate (cacheEnabled : Bool) (cache : DistCache)
    (fn : VectorExpressionType) (lhs rhs : Value) : Except VdbError Value :=
  match Value.GetVector lhs with
  | .error e => .error e
  | .ok lv =>
    match Value.GetVector rhs with
    | .error e => .error e
    | .ok rv =>
      match ComputeDistance cacheEnabled cache lv rv fn with
      | .error e => .error e
      | .ok (d, _) => .ok (Value.decimal d)

/-! ## Execution engine (execution_engine.h) -/

/-- One observable event of the root executor while the engine polls it: a
produced row, or a raised failure escaping `Init`/`Next`. -/
inductive NextOutcome
  | row (t : Tuple)
  | raised (e : VdbError)

/-- `ExecutionEngine::PollExecutor`: pull rows from the root executor,
appending each to the result set, until exhaustion or a raised failure.  The
executor's behaviour during the call is its trace of outcomes; exhaustion is
the end of the trace. -/
def pollExecutor : List NextOutcome → List Tuple → List Tuple × Option VdbError
  | [], acc => (acc, none)
  | .row t :: rest, acc => pollExecutor rest (acc ++ [t])
  | .raised e :: _, acc => (acc, some e)

/-- `ExecutionEngine::Execute`: poll the root executor; on success return
`true` with the accumulated result set.  The `catch (const ExecutionException &)`
block (the spec's `ExecutionAborted` kind) clears the result set and returns
`false`; any other failure is not caught and propagates to the caller (the
result set is left as accumulated). -/
def ExecutionEngine.Execute (trace : List NextOutcome) :
    Except (VdbError × List Tuple) (Bool × List Tuple) :=
  match pollExecutor trace [] with
  | (rs, none) => .ok (true, rs)
  | (rs, some e) =>
    if e = VdbError.ExecutionAborted then .ok (false, []) else .error (e, rs)

/-! ## Table heap, forward iterator, sequential scan -/

/-- A slotted table page: its tuple slots (each with metadata) and the id of
the successor page (`TablePage`, storage/page/table_page.h). -/
structure TablePage where
  tuples : List (TupleMeta × Tuple)
  nextPageId : PageId

/-- `TablePage::GetNumTuples`. -/
def TablePage.GetNumTuples (p : TablePage) : Nat := p.tuples.length

/-- `TablePage::GetNextPageId`. -/
def TablePage.GetNextPageId (p : TablePage) : PageId := p.nextPageId

/-- The table heap as seen through `bpm_->FetchPage`: pages addressed by page
id.  Pages may grow (inserts) after an iterator was created. -/
abbrev TableHeap := PageId → TablePage

/-- `TableHeap::GetTuple(rid)`: read the slot's metadata and tuple. -/
def TableHeap.GetTuple (heap : TableHeap) (rid : RID) : TupleMeta × Tuple :=
  (heap rid.pageId).tuples.getD rid.slot (⟨0, false⟩, [])

/-- Position order on RIDs: strictly earlier page, or same page and strictly
earlier slot.  This is the order the iterator's bounds assertion is phrased
in (a position before the stop RID). -/
def RID.before (a b : RID) : Prop :=
  a.pageId < b.pageId ∨ (a.pageId = b.pageId ∧ a.slot < b.slot)

/-- A forward iterator (table_iterator.cpp): current position and the
snapshot stop position captured at `MakeIterator` time. -/
structure TableIterator where
  rid : RID
  stop_at_rid : RID
deriving DecidableEq, Repr

/-- `TableIterator::IsEnd`. -/
def TableIterator.IsEnd (it : TableIterator) : Bool :=
  it.rid.pageId = INVALID_PAGE_ID

/-- `TableIterator::GetRID`. -/
def TableIterator.GetRID (it : TableIterator) : RID := it.rid

/-- `TableIterator::GetTuple`. -/
def TableIterator.GetTuple (heap : TableHeap) (it : TableIterator) : TupleMeta × Tuple :=
  heap.GetTuple it.rid

/-- `TableIterator::operator++` (table_iterator.cpp lines 33-66): advance the
slot; if the new position equals the snapshot stop, become the end iterator;
otherwise stay on the page while slots remain, else move to the successor
page's slot 0.  The `BUSTUB_ASSERT` bounds check is a runtime abort, not a
value; the snapshot theorem below shows the positions it asserts are the ones
actually reached. -/
def TableIterator.inc (heap : TableHeap) (it : TableIterator) : TableIterator :=
  let page := heap it.rid.pageId
  let next_tuple_id := it.rid.slot + 1
  let rid1 : RID := ⟨it.rid.pageId, next_tuple_id⟩
  if rid1 = it.stop_at_rid then ⟨⟨INVALID_PAGE_ID, 0⟩, it.stop_at_rid⟩
  else if next_tuple_id < page.GetNumTuples then ⟨rid1, it.stop_at_rid⟩
  else ⟨⟨page.GetNextPageId, 0⟩, it.stop_at_rid⟩

/-- `SeqScanExecutor::Next` (seq_scan_executor.cpp lines 33-45): if the
iterator is at the end return false; otherwise read `GetTuple` (discarding the
metadata: `auto [_, tup]`), output the tuple and its RID, and advance the
iterator. -/
def SeqScanExecutor.Next (heap : TableHeap) (iter : TableIterator) :
    Option (Tuple × RID) × TableIterator :=
  if iter.IsEnd then (none, iter)
  else (some ((iter.GetTuple heap).2, iter.GetRID), iter.inc heap)

/-! ## Nested-loop join (nested_loop_join_executor.cpp) -/

/-- Join types (binder/table_ref/bound_join_ref.h). -/
inductive JoinType
  | INVALID
  | LEFT
  | RIGHT
  | INNER
  | OUTER
deriving DecidableEq, Repr

/-- The parts of a `NestedLoopJoinPlanNode` the executor reads: the join
type, the predicate (as its `EvaluateJoin` function on a left and a right
tuple), and the two children's output schemas (left column count; right
column types, used for null padding). -/
structure NLJPlan where
  join_type : JoinType
  predicate : Tuple → Tuple → Value
  leftColCount : Nat
  rightColTypes : List TypeId

/-- The `NestedLoopJoinExecutor` constructor (lines 7-15): join types other
than `LEFT` and `INNER` throw `NotImplementedException` before `Init`/`Next`
can run. -/
def NestedLoopJoinExecutor.new (plan : NLJPlan) : Except VdbError Unit :=
  if plan.join_type ≠ JoinType.LEFT ∧ plan.join_type ≠ JoinType.INNER then
    .error (VdbError.NotImplemented "join type not supported")
  else .ok ()

/-- `NestedLoopJoinExecutor::Matched`: the predicate's `EvaluateJoin` result
joins iff it is non-null and true. -/
def NLJPlan.Matched (plan : NLJPlan) (left_tuple right_tuple : Tuple) : Bool :=
  let value := plan.predicate left_tuple right_tuple
  !value.IsNull && value.GetAsBool

/-- The inner `for` loop of `Next`: scan the buffered right tuples from
absolute index `idx` (the remaining suffix is passed), returning the absolute
index of the first match. -/
def NLJPlan.scanFrom (plan : NLJPlan) (lt : Tuple) : List Tuple → Nat → Option Nat
  | [], _ => none
  | rt :: rest, idx =>
    if plan.Matched lt rt then some idx else plan.scanFrom lt rest (idx + 1)

/-- The matched-row output of `Next`: left values (one per left output
column) followed by right values (one per right output column). -/
def NLJPlan.joinVals (plan : NLJPlan) (lt rt : Tuple) : Tuple :=
  (List.range plan.leftColCount).map (fun i => lt.getD i defaultVal) ++
    (List.range plan.rightColTypes.length).map (fun i => rt.getD i defaultVal)

/-- The LEFT-join null-padded output of `Next`: left values followed by
`ValueFactory::GetNullValueByType` of each right column's type. -/
def NLJPlan.nullPadVals (plan : NLJPlan) (lt : Tuple) : Tuple :=
  (List.range plan.leftColCount).map (fun i => lt.getD i defaultVal) ++
    plan.rightColTypes.map Value.nullOf

/-- Mutable state of the nested-loop join executor across `Next` calls: the
right tuples buffered by `Init`, the resumption cursor `right_tuple_idx_`
(`-1` when the next call must pull a fresh left row), the current left tuple,
and the left child executor (embedded as its remaining rows). -/
structure NLJState where
  right_tuples : List Tuple
  right_tuple_idx : Int
  left_tuple : Tuple
  leftRows : List Tuple

/-- The `while` loop of `Next` in the phase where `right_tuple_idx_ == -1`:
pull left rows until one produces output.  A pulled row is scanned against
the whole buffer; on a match the matched row is emitted with the cursor set
past the match; with no match a LEFT join emits the null-padded row (cursor
stays `-1`), and an INNER join drops the row and pulls the next one. -/
def NestedLoopJoinExecutor.pullLoop (plan : NLJPlan) (buf : List Tuple) :
    List Tuple → Tuple → Option Tuple × NLJState
  | [], lastLeft => (none, ⟨buf, -1, lastLeft, []⟩)
  | lt :: rest, _ =>
    match plan.scanFrom lt buf 0 with
    | some j =>
      (some (plan.joinVals lt (buf.getD j [])), ⟨buf, (j : Int) + 1, lt, rest⟩)
    | none =>
      if plan.join_type = JoinType.LEFT then
        (some (plan.nullPadVals lt), ⟨buf, -1, lt, rest⟩)
      else
        NestedLoopJoinExecutor.pullLoop plan buf rest lt

/-- `NestedLoopJoinExecutor::Next` (lines 28-62).  When `right_tuple_idx_ >= 0`
the previous call had emitted a match for the current left row: resume the
buffer scan at the cursor; a further match is emitted with the cursor
advanced; otherwise (the null-pad branch requires the cursor to be `-1`, so
it is skipped) the cursor resets and the loop pulls the next left row. -/
def NestedLoopJoinExecutor.Next (plan : NLJPlan) (s : NLJState) :
    Option Tuple × NLJState :=
  if 0 ≤ s.right_tuple_idx then
    let start := s.right_tuple_idx.toNat
    match plan.scanFrom s.left_tuple (s.right_tuples.drop start) start with
    | some j =>
      (some (plan.joinVals s.left_tuple (s.right_tuples.getD j [])),
       ⟨s.right_tuples, (j : Int) + 1, s.left_tuple, s.leftRows⟩)
    | none => NestedLoopJoinExecutor.pullLoop plan s.right_tuples s.leftRows s.left_tuple
  else NestedLoopJoinExecutor.pullLoop plan s.right_tuples s.leftRows s.left_tuple

/-- Rows emitted by repeatedly calling `Next` from a state, with fuel. -/
def NestedLoopJoinExecutor.collectRows (plan : NLJPlan) : Nat → NLJState → List Tuple
  | 0, _ => []
  | fuel + 1, s =>
    match NestedLoopJoinExecutor.Next plan s with
    | (none, _) => []
    | (some t, s') => t :: NestedLoopJoinExecutor.collectRows plan fuel s'

/-! ## Planner: base table references (plan_table_ref.cpp) -/

/-- Modelled from the spec: `StringUtil::StartsWith`
(common/util/string_util.cpp is not among the sources); the planner's check is
described as "names starting with `__`". -/
def StringUtil.StartsWith (s p : List Char) : Bool := p.isPrefixOf s

/-- The catalog entry for a table as `PlanBaseTableRef` reads it: its
catalog name and OID. -/
structure TableInfo where
  name : List Char
  oid : Nat

/-- The plan nodes `PlanBaseTableRef` can produce. -/
inductive BasePlan
  | MockScan (table : List Char)
  | SeqScan (oid : Nat) (table : List Char)
deriving DecidableEq, Repr

/-- `Planner::PlanBaseTableRef` (plan_table_ref.cpp lines 97-113): a table
whose catalog name starts with `__` is planned as a `MockScanPlanNode` when
the name starts with `__mock` and otherwise raises `Exception`; any other
name is planned as a `SeqScanPlanNode` over the table's OID.  (The message
interpolation of the table name is elided.) -/
def Planner.PlanBaseTableRef (table : TableInfo) : Except VdbError BasePlan :=
  if StringUtil.StartsWith table.name ['_', '_'] then
    if StringUtil.StartsWith table.name ['_', '_', 'm', 'o', 'c', 'k'] then
      .ok (BasePlan.MockScan table.name)
    else .error (VdbError.Exception "unsupported internal table")
  else .ok (BasePlan.SeqScan table.oid table.name)

/-! ## Theorems -/

theorem foldl_add_range (f : ℕ → ℝ) :
    ∀ (n : ℕ) (x : ℝ),
      (List.range n).foldl (fun acc i => acc + f i) x = x + ∑ i ∈ Finset.range n, f i := by
  intro n
  induction n with
  | zero => intro x; simp
  | succ n ih =>
    intro x
    rw [List.range_succ, List.foldl_append, ih, Finset.sum_range_succ]
    simp
    ring

theorem foldl3_add_range (f g h : ℕ → ℝ) :
    ∀ (n : ℕ) (x y z : ℝ),
      (List.range n).foldl
          (fun acc i => (acc.1 + f i, acc.2.1 + g i, acc.2.2 + h i)) (x, y, z) =
        (x + ∑ i ∈ Finset.range n, f i,
         y + ∑ i ∈ Finset.range n, g i,
         z + ∑ i ∈ Finset.range n, h i) := by
  intro n
  induction n with
  | zero => intro x y z; simp
  | succ n ih =>
    intro x y z
    rw [List.range_succ, List.foldl_append, ih]
    simp only [List.foldl_cons, List.foldl_nil, Finset.sum_range_succ, Prod.mk.injEq]
    refine ⟨by ring, by ring, by ring⟩

theorem l2SumLoop_eq_sum (a b : List ℝ) :
    l2SumLoop a b = ∑ i ∈ Finset.range a.length, (a.getD i 0 - b.getD i 0) ^ 2 := by
  unfold l2SumLoop
  rw [foldl_add_range (fun i => (a.getD i 0 - b.getD i 0) * (a.getD i 0 - b.getD i 0)), zero_add]
  exact Finset.sum_congr rfl fun i _ => (pow_two _).symm

theorem ipSumLoop_eq_sum (a b : List ℝ) :
    ipSumLoop a b = ∑ i ∈ Finset.range a.length, a.getD i 0 * b.getD i 0 := by
  unfold ipSumLoop
  rw [foldl_add_range (fun i => a.getD i 0 * b.getD i 0), zero_add]

theorem cosineLoops_eq_sum (a b : List ℝ) :
    cosineLoops a b =
      (∑ i ∈ Finset.range a.length, a.getD i 0 * b.getD i 0,
       ∑ i ∈ Finset.range a.length, a.getD i 0 * a.getD i 0,
       ∑ i ∈ Finset.range a.length, b.getD i 0 * b.getD i 0) := by
  unfold cosineLoops
  rw [foldl3_add_range (fun i => a.getD i 0 * b.getD i 0)
      (fun i => a.getD i 0 * a.getD i 0) (fun i => b.getD i 0 * b.getD i 0)]
  simp

theorem computeDistance_eval (cacheEnabled : Bool) (c : DistCache) (a b : List ℝ)
    (fn : VectorExpressionType) (h : a.length = b.length)
    (hmiss : cacheEnabled = true → cacheFind c (a, b) = none) :
    ComputeDistance cacheEnabled c a b fn =
      .ok (pureDistance a b fn,
           if cacheEnabled then cacheStore c a b (pureDistance a b fn) else c) := by
  have hprobe : (if cacheEnabled then cacheFind c (a, b) else none) = none := by
    cases cacheEnabled
    · rfl
    · exact hmiss rfl
  unfold ComputeDistance
  rw [hprobe]
  cases fn <;> simp [h, pureDistance]

/-- C2: with the memoization cache disabled (its compile-time default),
`ComputeDistance(a, b, fn)` equals `sqrt(Σ (a_i − b_i)²)` for `L2Dist`, the
negation of `Σ a_i·b_i` for `InnerProduct`, and
`1 − (Σ a_i·b_i) / sqrt((Σ a_i²)·(Σ b_i²))` for `CosineSimilarity`, for every
pair of vectors of equal dimension. -/
theorem computeDistance_formulas (a b : List ℝ) (c : DistCache) (h : a.length = b.length) :
    ComputeDistance false c a b VectorExpressionType.L2Dist =
      .ok (Real.sqrt (∑ i ∈ Finset.range a.length, (a.getD i 0 - b.getD i 0) ^ 2), c) ∧
    ComputeDistance false c a b VectorExpressionType.InnerProduct =
      .ok (-(∑ i ∈ Finset.range a.length, a.getD i 0 * b.getD i 0), c) ∧
    ComputeDistance false c a b VectorExpressionType.CosineSimilarity =
      .ok (1 - (∑ i ∈ Finset.range a.length, a.getD i 0 * b.getD i 0) /
            Real.sqrt ((∑ i ∈ Finset.range a.length, a.getD i 0 ^ 2) *
              (∑ i ∈ Finset.range a.length, b.getD i 0 ^ 2)), c) := by
  have hsq : ∀ (l : List ℝ),
      (∑ i ∈ Finset.range l.length, l.getD i 0 * l.getD i 0) =
        ∑ i ∈ Finset.range l.length, l.getD i 0 ^ 2 := by
    intro l
    exact Finset.sum_congr rfl fun i _ => (pow_two _).symm
  refine ⟨?_, ?_, ?_⟩ <;>
    rw [computeDistance_eval false c a b _ h (by simp)]
  · simp [pureDistance, l2SumLoop_eq_sum]
  · simp [pureDistance, ipSumLoop_eq_sum]
  · rw [show pureDistance a b VectorExpressionType.CosineSimilarity =
        1 - (cosineLoops a b).1 / Real.sqrt ((cosineLoops a b).2.1 * (cosineLoops a b).2.2)
        from rfl, cosineLoops_eq_sum, hsq a,
      show (∑ i ∈ Finset.range a.length, b.getD i 0 * b.getD i 0) =
          ∑ i ∈ Finset.range a.length, b.getD i 0 ^ 2
        from Finset.sum_congr rfl fun i _ => (pow_two _).symm]
    simp

/-- C2 witness: the three formulas at the concrete vectors `[1, 0]`, `[0, 1]`
with the empty cache. -/
theorem computeDistance_formulas_witness :
    ([1, 0] : List ℝ).length = ([0, 1] : List ℝ).length ∧
    (ComputeDistance false [] [1, 0] [0, 1] VectorExpressionType.L2Dist =
        .ok (Real.sqrt (∑ i ∈ Finset.range ([1, 0] : List ℝ).length,
          (([1, 0] : List ℝ).getD i 0 - ([0, 1] : List ℝ).getD i 0) ^ 2), []) ∧
      ComputeDistance false [] [1, 0] [0, 1] VectorExpressionType.InnerProduct =
        .ok (-(∑ i ∈ Finset.range ([1, 0] : List ℝ).length,
          ([1, 0] : List ℝ).getD i 0 * ([0, 1] : List ℝ).getD i 0), []) ∧
      ComputeDistance false [] [1, 0] [0, 1] VectorExpressionType.CosineSimilarity =
        .ok (1 - (∑ i ∈ Finset.range ([1, 0] : List ℝ).length,
            ([1, 0] : List ℝ).getD i 0 * ([0, 1] : List ℝ).getD i 0) /
          Real.sqrt ((∑ i ∈ Finset.range ([1, 0] : List ℝ).length, ([1, 0] : List ℝ).getD i 0 ^ 2) *
            (∑ i ∈ Finset.range ([1, 0] : List ℝ).length, ([0, 1] : List ℝ).getD i 0 ^ 2)), [])) :=
  ⟨rfl, computeDistance_formulas [1, 0] [0, 1] [] rfl⟩

theorem pureDistance_symm (a b : List ℝ) (h : a.length = b.length)
    (fn : VectorExpressionType) : pureDistance a b fn = pureDistance b a fn := by
  cases fn
  · show Real.sqrt (l2SumLoop a b) = Real.sqrt (l2SumLoop b a)
    rw [l2SumLoop_eq_sum, l2SumLoop_eq_sum, ← h]
    congr 1
    exact Finset.sum_congr rfl fun i _ => by ring
  · show -ipSumLoop a b = -ipSumLoop b a
    rw [ipSumLoop_eq_sum, ipSumLoop_eq_sum, ← h]
    congr 1
    exact Finset.sum_congr rfl fun i _ => by ring
  · show (1 : ℝ) - (cosineLoops a b).1 / Real.sqrt ((cosineLoops a b).2.1 * (cosineLoops a b).2.2) =
      1 - (cosineLoops b a).1 / Real.sqrt ((cosineLoops b a).2.1 * (cosineLoops b a).2.2)
    rw [cosineLoops_eq_sum, cosineLoops_eq_sum, ← h]
    simp only
    rw [show (∑ i ∈ Finset.range a.length, b.getD i 0 * a.getD i 0) =
          ∑ i ∈ Finset.range a.length, a.getD i 0 * b.getD i 0
        from Finset.sum_congr rfl fun i _ => by ring,
      mul_comm (∑ i ∈ Finset.range a.length, b.getD i 0 * b.getD i 0)
        (∑ i ∈ Finset.range a.length, a.getD i 0 * a.getD i 0)]

theorem cacheFind_store_self (c : DistCache) (a b : List ℝ) (v : ℝ) :
    cacheFind (cacheStore c a b v) (a, b) = some v ∧
    cacheFind (cacheStore c a b v) (b, a) = some v := by
  refine ⟨?_, ?_⟩ <;> simp only [cacheStore, cacheFind] <;> split_ifs <;> simp_all

/-- C4: for all equal-dimension vectors and each distance function,
`ComputeDistance(a, b, fn)` and `ComputeDistance(b, a, fn)` produce the same
value, whether the memoization cache is disabled or enabled over any
order-symmetric cache state; moreover on a cache miss with the cache enabled
the computed distance is stored under both key orders `(a, b)` and `(b, a)`. -/
theorem computeDistance_symmetric (cacheEnabled : Bool) (c : DistCache) (a b : List ℝ)
    (fn : VectorExpressionType) (h : a.length = b.length)
    (hsymc : ∀ x y : List ℝ, cacheFind c (x, y) = cacheFind c (y, x)) :
    (ComputeDistance cacheEnabled c a b fn).map Prod.fst =
      (ComputeDistance cacheEnabled c b a fn).map Prod.fst ∧
    (∀ v c', ComputeDistance true c a b fn = .ok (v, c') → cacheFind c (a, b) = none →
      cacheFind c' (a, b) = some v ∧ cacheFind c' (b, a) = some v) := by
  constructor
  · cases cacheEnabled with
    | false =>
      rw [computeDistance_eval false c a b fn h (by simp),
        computeDistance_eval false c b a fn h.symm (by simp)]
      simp [pureDistance_symm a b h fn]
    | true =>
      cases hf : cacheFind c (a, b) with
      | none =>
        have hf' : cacheFind c (b, a) = none := by rw [← hsymc a b]; exact hf
        rw [computeDistance_eval true c a b fn h (fun _ => hf),
          computeDistance_eval true c b a fn h.symm (fun _ => hf')]
        simp [Except.map, pureDistance_symm a b h fn]
      | some v =>
        have hf' : cacheFind c (b, a) = some v := by rw [← hsymc a b]; exact hf
        unfold ComputeDistance
        simp [hf, hf']
  · intro v c' hok hmiss
    rw [computeDistance_eval true c a b fn h (fun _ => hmiss)] at hok
    simp only [if_true, Except.ok.injEq, Prod.mk.injEq] at hok
    obtain ⟨hv, hc⟩ := hok
    rw [← hv, ← hc]
    exact cacheFind_store_self c a b (pureDistance a b fn)

/-- C4 witness: symmetry of the two call orders at the concrete vectors
`[1, 2]`, `[3, 4]` with the cache enabled over the empty cache. -/
theorem computeDistance_symmetric_witness :
    ([1, 2] : List ℝ).length = ([3, 4] : List ℝ).length ∧
    (ComputeDistance true [] [1, 2] [3, 4] VectorExpressionType.L2Dist).map Prod.fst =
      (ComputeDistance true [] [3, 4] [1, 2] VectorExpressionType.L2Dist).map Prod.fst :=
  ⟨rfl,
   (computeDistance_symmetric true [] [1, 2] [3, 4] VectorExpressionType.L2Dist rfl
      (fun _ _ => rfl)).1⟩

theorem cacheFind_none_of_len_ne (c : DistCache)
    (hwf : ∀ e ∈ c, e.1.1.length = e.1.2.length) (x y : List ℝ)
    (hxy : x.length ≠ y.length) : cacheFind c (x, y) = none := by
  induction c with
  | nil => rfl
  | cons e rest ih =>
    have hx : ¬e.1 = (x, y) := by
      intro hexy
      have hlen := hwf e (List.mem_cons_self e rest)
      rw [hexy] at hlen
      exact hxy hlen
    rw [cacheFind, if_neg hx]
    exact ih fun e' he' => hwf e' (List.mem_cons_of_mem e he')

/-- C5: evaluating a vector distance expression whose either operand is not a
vector, or whose operand vectors have different dimensions, fails with
`TypeMismatch` (for any cache state whose keys pair equal-length vectors,
in particular the empty or disabled cache). -/
theorem vectorExpression_evaluate_type_mismatch (cacheEnabled : Bool) (c : DistCache)
    (fn : VectorExpressionType) (lhs rhs : Value)
    (hwf : ∀ e ∈ c, e.1.1.length = e.1.2.length)
    (hbad : ¬∃ lv rv, lhs = Value.vector lv ∧ rhs = Value.vector rv ∧ lv.length = rv.length) :
    VectorExpression.Evaluate cacheEnabled c fn lhs rhs = .error VdbError.TypeMismatch := by
  cases lhs with
  | vector lv =>
    cases rhs with
    | vector rv =>
      have hne : lv.length ≠ rv.length := fun hl => hbad ⟨lv, rv, rfl, rfl, hl⟩
      have hprobe : (if cacheEnabled then cacheFind c (lv, rv) else none) = none := by
        cases cacheEnabled
        · rfl
        · simpa using cacheFind_none_of_len_ne c hwf lv rv hne
      have hcd : ComputeDistance cacheEnabled c lv rv fn = .error VdbError.TypeMismatch := by
        unfold ComputeDistance
        rw [hprobe]
        simp [hne]
      simp [VectorExpression.Evaluate, Value.GetVector, hcd]
    | nullOf t => simp [VectorExpression.Evaluate, Value.GetVector]
    | boolean x => simp [VectorExpression.Evaluate, Value.GetVector]
    | integer x => simp [VectorExpression.Evaluate, Value.GetVector]
    | decimal x => simp [VectorExpression.Evaluate, Value.GetVector]
    | varchar x => simp [VectorExpression.Evaluate, Value.GetVector]
  | nullOf t => simp [VectorExpression.Evaluate, Value.GetVector]
  | boolean x => simp [VectorExpression.Evaluate, Value.GetVector]
  | integer x => simp [VectorExpression.Evaluate, Value.GetVector]
  | decimal x => simp [VectorExpression.Evaluate, Value.GetVector]
  | varchar x => simp [VectorExpression.Evaluate, Value.GetVector]

/-- C5 witness: a non-vector left operand, and a dimension mismatch `1` vs
`2`, both fail with `TypeMismatch`. -/
theorem vectorExpression_evaluate_type_mismatch_witness :
    VectorExpression.Evaluate false [] VectorExpressionType.L2Dist
        (Value.integer 1) (Value.vector [1]) = .error VdbError.TypeMismatch ∧
    VectorExpression.Evaluate false [] VectorExpressionType.L2Dist
        (Value.vector [1]) (Value.vector [1, 2]) = .error VdbError.TypeMismatch :=
  ⟨vectorExpression_evaluate_type_mismatch false [] VectorExpressionType.L2Dist
      (Value.integer 1) (Value.vector [1]) (by simp)
      (by rintro ⟨lv, rv, hl, hr, hlen⟩; cases hl),
   vectorExpression_evaluate_type_mismatch false [] VectorExpressionType.L2Dist
      (Value.vector [1]) (Value.vector [1, 2]) (by simp)
      (by rintro ⟨lv, rv, hl, hr, hlen⟩; cases hl; cases hr; simp at hlen)⟩

theorem pollExecutor_rows : ∀ (rows : List Tuple) (acc : List Tuple),
    pollExecutor (rows.map NextOutcome.row) acc = (acc ++ rows, none) := by
  intro rows
  induction rows with
  | nil => intro acc; simp [pollExecutor]
  | cons t rest ih => intro acc; simp [pollExecutor, ih]

theorem pollExecutor_raised : ∀ (rows : List Tuple) (acc : List Tuple) (e : VdbError)
    (rest : List NextOutcome),
    pollExecutor (rows.map NextOutcome.row ++ NextOutcome.raised e :: rest) acc =
      (acc ++ rows, some e) := by
  intro rows
  induction rows with
  | nil => intro acc e rest; simp [pollExecutor]
  | cons t rs ih => intro acc e rest; simp [pollExecutor, ih]

/-- C3: when the root executor produces some rows and then raises
`ExecutionAborted` (the spec's name for `ExecutionException`), the engine
catches it, clears the partially accumulated result set (no rows remain) and
returns `false`; a clean run returns `true` with all rows; any other failure
is not caught and propagates to the caller. -/
theorem executionEngine_execute_abort (rows : List Tuple) (e : VdbError)
    (rest : List NextOutcome) :
    ExecutionEngine.Execute (rows.map NextOutcome.row) = .ok (true, rows) ∧
    (e = VdbError.ExecutionAborted →
      ExecutionEngine.Execute (rows.map NextOutcome.row ++ NextOutcome.raised e :: rest) =
        .ok (false, [])) ∧
    (e ≠ VdbError.ExecutionAborted →
      ExecutionEngine.Execute (rows.map NextOutcome.row ++ NextOutcome.raised e :: rest) =
        .error (e, rows)) := by
  refine ⟨?_, ?_, ?_⟩
  · unfold ExecutionEngine.Execute
    rw [pollExecutor_rows rows []]
    simp
  · intro he
    unfold ExecutionEngine.Execute
    rw [pollExecutor_raised rows [] e rest]
    simp [he]
  · intro he
    unfold ExecutionEngine.Execute
    rw [pollExecutor_raised rows [] e rest]
    simp [he]

/-- C3 witness: one accumulated row, then `ExecutionAborted` (caught, result
cleared) versus `TypeMismatch` (propagated with the partial result). -/
theorem executionEngine_execute_abort_witness :
    ExecutionEngine.Execute ([[Value.integer 7]].map NextOutcome.row) =
      .ok (true, [[Value.integer 7]]) ∧
    ExecutionEngine.Execute ([[Value.integer 7]].map NextOutcome.row ++
        NextOutcome.raised VdbError.ExecutionAborted :: []) = .ok (false, []) ∧
    ExecutionEngine.Execute ([[Value.integer 7]].map NextOutcome.row ++
        NextOutcome.raised VdbError.TypeMismatch :: []) =
      .error (VdbError.TypeMismatch, [[Value.integer 7]]) :=
  ⟨(executionEngine_execute_abort [[Value.integer 7]] VdbError.ExecutionAborted []).1,
   (executionEngine_execute_abort [[Value.integer 7]] VdbError.ExecutionAborted []).2.1 rfl,
   (executionEngine_execute_abort [[Value.integer 7]] VdbError.TypeMismatch []).2.2 (by decide)⟩

/-- C1 counterexample: on a heap whose only slot is tombstoned
(`is_deleted = true`), `SeqScanExecutor::Next` still returns `true` and emits
that tuple — the scan never reads the metadata (`auto [_, tup]`), so
tombstoned rows are not skipped, contrary to the claim. -/
theorem seqScan_tombstone_counterexample :
    (TableHeap.GetTuple
        (fun p => if p = 0 then ⟨[(⟨5, true⟩, [Value.integer 42])], INVALID_PAGE_ID⟩
          else ⟨[], INVALID_PAGE_ID⟩) ⟨0, 0⟩).1.is_deleted = true ∧
    (SeqScanExecutor.Next
        (fun p => if p = 0 then ⟨[(⟨5, true⟩, [Value.integer 42])], INVALID_PAGE_ID⟩
          else ⟨[], INVALID_PAGE_ID⟩) ⟨⟨0, 0⟩, ⟨0, 1⟩⟩).1 =
      some ([Value.integer 42], ⟨0, 0⟩) :=
  ⟨rfl, rfl⟩

/-- C1 amended: every `Next` call on a non-exhausted iterator returns `true`
and yields the tuple stored at the iterator's current RID together with that
RID, regardless of the slot's `is_deleted` flag (tombstoned rows are emitted
too), and advances the iterator. -/
theorem seqScanNext_emits_current_tuple (heap : TableHeap) (it : TableIterator)
    (h : it.IsEnd = false) :
    SeqScanExecutor.Next heap it =
      (some ((heap.GetTuple it.rid).2, it.rid), it.inc heap) := by
  simp [SeqScanExecutor.Next, h, TableIterator.GetTuple, TableIterator.GetRID]

/-- C1 witness: the amended statement at the one-slot tombstoned heap. -/
theorem seqScanNext_emits_current_tuple_witness :
    SeqScanExecutor.Next (fun _ => ⟨[(⟨5, true⟩, [Value.integer 42])], INVALID_PAGE_ID⟩)
        ⟨⟨0, 0⟩, ⟨0, 1⟩⟩ =
      (some ((TableHeap.GetTuple
          (fun _ => ⟨[(⟨5, true⟩, [Value.integer 42])], INVALID_PAGE_ID⟩) ⟨0, 0⟩).2, ⟨0, 0⟩),
       TableIterator.inc (fun _ => ⟨[(⟨5, true⟩, [Value.integer 42])], INVALID_PAGE_ID⟩)
         ⟨⟨0, 0⟩, ⟨0, 1⟩⟩) :=
  seqScanNext_emits_current_tuple _ _ rfl

theorem pullLoop_none_state (plan : NLJPlan) (buf : List Tuple) :
    ∀ (ls : List Tuple) (lt : Tuple) (s' : NLJState),
      NestedLoopJoinExecutor.pullLoop plan buf ls lt = (none, s') →
      s'.leftRows = [] ∧ s'.right_tuple_idx = -1 ∧ s'.right_tuples = buf := by
  intro ls
  induction ls with
  | nil =>
    intro lt s' hp
    simp only [NestedLoopJoinExecutor.pullLoop, Prod.mk.injEq, true_and] at hp
    rw [← hp]
    exact ⟨rfl, rfl, rfl⟩
  | cons lt2 rest ih =>
    intro lt s' hp
    cases hscan : plan.scanFrom lt2 buf 0 with
    | some j =>
      simp only [NestedLoopJoinExecutor.pullLoop, hscan] at hp
      simp at hp
    | none =>
      simp only [NestedLoopJoinExecutor.pullLoop, hscan] at hp
      by_cases hjt : plan.join_type = JoinType.LEFT
      · rw [if_pos hjt] at hp
        simp at hp
      · rw [if_neg hjt] at hp
        exact ih lt2 s' hp

theorem nlj_next_none (plan : NLJPlan) (s s' : NLJState)
    (h : NestedLoopJoinExecutor.Next plan s = (none, s')) :
    s'.leftRows = [] ∧ s'.right_tuple_idx = -1 ∧ s'.right_tuples = s.right_tuples := by
  by_cases hidx : 0 ≤ s.right_tuple_idx
  · simp only [NestedLoopJoinExecutor.Next, if_pos hidx] at h
    cases hscan : plan.scanFrom s.left_tuple (s.right_tuples.drop s.right_tuple_idx.toNat)
        s.right_tuple_idx.toNat with
    | some j =>
      rw [hscan] at h
      simp at h
    | none =>
      rw [hscan] at h
      exact pullLoop_none_state plan s.right_tuples s.leftRows s.left_tuple s' h
  · simp only [NestedLoopJoinExecutor.Next, if_neg hidx] at h
    exact pullLoop_none_state plan s.right_tuples s.leftRows s.left_tuple s' h

/-- C8: for the sequential-scan and nested-loop-join executors, once `Next`
has returned `false`, every subsequent call on the resulting state returns
`false` again: exhaustion is stable. -/
theorem executor_exhaustion_stable :
    (∀ (heap : TableHeap) (it : TableIterator),
      (SeqScanExecutor.Next heap it).1 = none →
      (SeqScanExecutor.Next heap (SeqScanExecutor.Next heap it).2).1 = none) ∧
    (∀ (plan : NLJPlan) (s : NLJState),
      (NestedLoopJoinExecutor.Next plan s).1 = none →
      (NestedLoopJoinExecutor.Next plan (NestedLoopJoinExecutor.Next plan s).2).1 = none) := by
  constructor
  · intro heap it h
    by_cases hend : it.IsEnd
    · simp [SeqScanExecutor.Next, hend]
    · simp [SeqScanExecutor.Next, hend] at h
  · intro plan s h
    rcases hN : NestedLoopJoinExecutor.Next plan s with ⟨r, s'⟩
    rw [hN] at h
    have hr : r = none := h
    subst hr
    obtain ⟨hl, hi, _⟩ := nlj_next_none plan s s' hN
    have hneg : ¬0 ≤ s'.right_tuple_idx := by rw [hi]; decide
    show (NestedLoopJoinExecutor.Next plan s').1 = none
    simp only [NestedLoopJoinExecutor.Next, if_neg hneg]
    rw [hl]
    simp [NestedLoopJoinExecutor.pullLoop]

/-- C8 witness: an exhausted sequential scan (end iterator) and an exhausted
nested-loop join (no left rows, cursor `-1`) keep returning `false`. -/
theorem executor_exhaustion_stable_witness :
    (SeqScanExecutor.Next (fun _ => ⟨[], INVALID_PAGE_ID⟩)
        ⟨⟨INVALID_PAGE_ID, 0⟩, ⟨0, 0⟩⟩).1 = none ∧
    (SeqScanExecutor.Next (fun _ => ⟨[], INVALID_PAGE_ID⟩)
        (SeqScanExecutor.Next (fun _ => ⟨[], INVALID_PAGE_ID⟩)
          ⟨⟨INVALID_PAGE_ID, 0⟩, ⟨0, 0⟩⟩).2).1 = none ∧
    (NestedLoopJoinExecutor.Next ⟨JoinType.INNER, fun _ _ => Value.boolean false, 0, []⟩
        ⟨[], -1, [], []⟩).1 = none ∧
    (NestedLoopJoinExecutor.Next ⟨JoinType.INNER, fun _ _ => Value.boolean false, 0, []⟩
        (NestedLoopJoinExecutor.Next ⟨JoinType.INNER, fun _ _ => Value.boolean false, 0, []⟩
          ⟨[], -1, [], []⟩).2).1 = none :=
  ⟨rfl, executor_exhaustion_stable.1 _ _ rfl, rfl, executor_exhaustion_stable.2 _ _ rfl⟩

theorem scanFrom_none_of_no_match (plan : NLJPlan) (lt : Tuple) :
    ∀ (l : List Tuple) (idx : Nat), (∀ rt ∈ l, plan.Matched lt rt = false) →
      plan.scanFrom lt l idx = none := by
  intro l
  induction l with
  | nil => intro idx _; rfl
  | cons rt rest ih =>
    intro idx hnm
    simp only [NLJPlan.scanFrom]
    rw [hnm rt (List.mem_cons_self rt rest)]
    simp only [Bool.false_eq_true, if_false]
    exact ih (idx + 1) fun rt' h' => hnm rt' (List.mem_cons_of_mem rt h')

theorem nlj_left_empty_run (plan : NLJPlan) (hjt : plan.join_type = JoinType.LEFT) :
    ∀ (leftRows : List Tuple) (lastLeft : Tuple),
      NestedLoopJoinExecutor.collectRows plan leftRows.length ⟨[], -1, lastLeft, leftRows⟩ =
        leftRows.map plan.nullPadVals := by
  intro leftRows
  induction leftRows with
  | nil => intro lastLeft; rfl
  | cons lt rest ih =>
    intro lastLeft
    have h0 : NestedLoopJoinExecutor.Next plan ⟨[], -1, lastLeft, lt :: rest⟩ =
        NestedLoopJoinExecutor.pullLoop plan [] (lt :: rest) lastLeft := rfl
    have h1 : NestedLoopJoinExecutor.pullLoop plan [] (lt :: rest) lastLeft =
        if plan.join_type = JoinType.LEFT then
          (some (plan.nullPadVals lt), ⟨[], -1, lt, rest⟩)
        else NestedLoopJoinExecutor.pullLoop plan [] rest lt := rfl
    have hnext : NestedLoopJoinExecutor.Next plan ⟨[], -1, lastLeft, lt :: rest⟩ =
        (some (plan.nullPadVals lt), ⟨[], -1, lt, rest⟩) := by
      rw [h0, h1, if_pos hjt]
    show NestedLoopJoinExecutor.collectRows plan (rest.length + 1)
        ⟨[], -1, lastLeft, lt :: rest⟩ = _
    simp only [NestedLoopJoinExecutor.collectRows, hnext]
    rw [ih lt]
    simp

/-- C6: in a LEFT nested-loop join, a left row matched by no buffered right
row is emitted exactly once as the left values followed by nulls of the right
column types (and the state then moves past that left row); in particular,
with an empty right buffer a full run emits exactly one null-padded row per
left row, in order. -/
theorem nlj_left_join_null_padding (plan : NLJPlan) (hjt : plan.join_type = JoinType.LEFT)
    (buf : List Tuple) (lt : Tuple) (rest : List Tuple) (lastLeft : Tuple)
    (hnm : ∀ rt ∈ buf, plan.Matched lt rt = false) :
    NestedLoopJoinExecutor.pullLoop plan buf (lt :: rest) lastLeft =
      (some (plan.nullPadVals lt), ⟨buf, -1, lt, rest⟩) ∧
    (∀ (leftRows : List Tuple) (lastLeft₂ : Tuple),
      NestedLoopJoinExecutor.collectRows plan leftRows.length ⟨[], -1, lastLeft₂, leftRows⟩ =
        leftRows.map plan.nullPadVals) := by
  constructor
  · have hscan : plan.scanFrom lt buf 0 = none :=
      scanFrom_none_of_no_match plan lt buf 0 hnm
    simp only [NestedLoopJoinExecutor.pullLoop, hscan]
    rw [if_pos hjt]
  · exact nlj_left_empty_run plan hjt

/-- C6 witness: a LEFT join over a one-row buffer with an always-false
predicate emits the null-padded left row. -/
theorem nlj_left_join_null_padding_witness :
    NestedLoopJoinExecutor.pullLoop
        ⟨JoinType.LEFT, fun _ _ => Value.boolean false, 1, [TypeId.INTEGER]⟩
        [[Value.integer 9]] ([Value.integer 1] :: []) [] =
      (some ((⟨JoinType.LEFT, fun _ _ => Value.boolean false, 1,
          [TypeId.INTEGER]⟩ : NLJPlan).nullPadVals [Value.integer 1]),
       ⟨[[Value.integer 9]], -1, [Value.integer 1], []⟩) :=
  (nlj_left_join_null_padding ⟨JoinType.LEFT, fun _ _ => Value.boolean false, 1,
      [TypeId.INTEGER]⟩ rfl [[Value.integer 9]] [Value.integer 1] [] []
    (by decide)).1

/-- C7: constructing a nested-loop join executor fails fast with
`NotImplemented` exactly when the plan's join type is neither `INNER` nor
`LEFT`; for `INNER` and `LEFT` the constructor succeeds. -/
theorem nlj_constructor_not_implemented (plan : NLJPlan) :
    (plan.join_type ≠ JoinType.INNER → plan.join_type ≠ JoinType.LEFT →
      NestedLoopJoinExecutor.new plan =
        .error (VdbError.NotImplemented "join type not supported")) ∧
    (NestedLoopJoinExecutor.new plan = .ok () ↔
      plan.join_type = JoinType.INNER ∨ plan.join_type = JoinType.LEFT) := by
  cases hjt : plan.join_type <;> simp [NestedLoopJoinExecutor.new, hjt]

/-- C7 witness: an `OUTER` join plan is rejected with `NotImplemented`; an
`INNER` join plan constructs successfully. -/
theorem nlj_constructor_not_implemented_witness :
    NestedLoopJoinExecutor.new ⟨JoinType.OUTER, fun _ _ => defaultVal, 0, []⟩ =
      .error (VdbError.NotImplemented "join type not supported") ∧
    NestedLoopJoinExecutor.new ⟨JoinType.INNER, fun _ _ => defaultVal, 0, []⟩ = .ok () :=
  ⟨(nlj_constructor_not_implemented _).1 (by decide) (by decide),
   (nlj_constructor_not_implemented _).2.mpr (Or.inl rfl)⟩

/-- C9: advancing a snapshot iterator never yields a position at or past the
stop RID.  From any position strictly before the stop, one `operator++` step
keeps the stop unchanged and either reaches the end iterator or a position
still strictly before the stop; in particular, when the incremented position
equals the stop RID the iterator becomes the end iterator.  The hypotheses
are the snapshot-structure facts: the stop slot count never shrinks (slot
counts are monotone), pages before the stop page link to pages no later than
the stop page, and a page linking directly to the stop page implies the stop
page held at least one tuple at snapshot time.  Tuples inserted after
iterator creation live at or past the stop position, so they are never
returned. -/
theorem tableIterator_snapshot_stop (heap : TableHeap) (it : TableIterator)
    (h_before : it.rid.before it.stop_at_rid)
    (h_slots : it.stop_at_rid.slot ≤ (heap it.stop_at_rid.pageId).GetNumTuples)
    (h_chain : it.rid.pageId < it.stop_at_rid.pageId →
      (heap it.rid.pageId).GetNextPageId = INVALID_PAGE_ID ∨
        (heap it.rid.pageId).GetNextPageId ≤ it.stop_at_rid.pageId)
    (h_chain0 : it.rid.pageId < it.stop_at_rid.pageId →
      (heap it.rid.pageId).GetNextPageId = it.stop_at_rid.pageId →
      0 < it.stop_at_rid.slot) :
    (TableIterator.inc heap it).stop_at_rid = it.stop_at_rid ∧
    ((TableIterator.inc heap it).IsEnd = true ∨
      (TableIterator.inc heap it).rid.before it.stop_at_rid) ∧
    ((⟨it.rid.pageId, it.rid.slot + 1⟩ : RID) = it.stop_at_rid →
      (TableIterator.inc heap it).IsEnd = true) := by
  by_cases h1 : (⟨it.rid.pageId, it.rid.slot + 1⟩ : RID) = it.stop_at_rid
  · have hinc : TableIterator.inc heap it = ⟨⟨INVALID_PAGE_ID, 0⟩, it.stop_at_rid⟩ := by
      unfold TableIterator.inc
      rw [if_pos h1]
    rw [hinc]
    exact ⟨rfl, Or.inl rfl, fun _ => rfl⟩
  · have hne_slot : it.rid.pageId = it.stop_at_rid.pageId →
        it.rid.slot + 1 ≠ it.stop_at_rid.slot := by
      intro hpe heq
      exact h1 (by rw [hpe, heq])
    by_cases h2 : it.rid.slot + 1 < (heap it.rid.pageId).GetNumTuples
    · have hinc : TableIterator.inc heap it =
          ⟨⟨it.rid.pageId, it.rid.slot + 1⟩, it.stop_at_rid⟩ := by
        unfold TableIterator.inc
        rw [if_neg h1, if_pos h2]
      rw [hinc]
      refine ⟨rfl, Or.inr ?_, fun hcon => absurd hcon h1⟩
      rcases h_before with hp | ⟨hpe, hs⟩
      · exact Or.inl hp
      · have := hne_slot hpe
        refine Or.inr ⟨hpe, ?_⟩
        show it.rid.slot + 1 < it.stop_at_rid.slot
        omega
    · have hinc : TableIterator.inc heap it =
          ⟨⟨(heap it.rid.pageId).GetNextPageId, 0⟩, it.stop_at_rid⟩ := by
        unfold TableIterator.inc
        rw [if_neg h1, if_neg h2]
      rcases h_before with hp | ⟨hpe, hs⟩
      · rw [hinc]
        rcases h_chain hp with hnil | hle
        · refine ⟨rfl, Or.inl ?_, fun hcon => absurd hcon h1⟩
          simp [TableIterator.IsEnd, hnil]
        · rcases lt_or_eq_of_le hle with hlt | heq
          · exact ⟨rfl, Or.inr (Or.inl hlt), fun hcon => absurd hcon h1⟩
          · exact ⟨rfl, Or.inr (Or.inr ⟨heq, h_chain0 hp heq⟩), fun hcon => absurd hcon h1⟩
      · exfalso
        have := hne_slot hpe
        apply h2
        rw [hpe]
        omega

/-- C9 witness: one step from slot 0 on the stop page (stop slot 2, page
holding two tuples) stays strictly before the stop. -/
theorem tableIterator_snapshot_stop_witness :
    (TableIterator.inc (fun _ => ⟨[(⟨0, false⟩, []), (⟨0, false⟩, [])], INVALID_PAGE_ID⟩)
        ⟨⟨0, 0⟩, ⟨0, 2⟩⟩).stop_at_rid = ((⟨⟨0, 0⟩, ⟨0, 2⟩⟩ : TableIterator)).stop_at_rid ∧
    ((TableIterator.inc (fun _ => ⟨[(⟨0, false⟩, []), (⟨0, false⟩, [])], INVALID_PAGE_ID⟩)
        ⟨⟨0, 0⟩, ⟨0, 2⟩⟩).IsEnd = true ∨
      (TableIterator.inc (fun _ => ⟨[(⟨0, false⟩, []), (⟨0, false⟩, [])], INVALID_PAGE_ID⟩)
        ⟨⟨0, 0⟩, ⟨0, 2⟩⟩).rid.before (⟨0, 2⟩ : RID)) ∧
    ((⟨0, 0 + 1⟩ : RID) = (⟨0, 2⟩ : RID) →
      (TableIterator.inc (fun _ => ⟨[(⟨0, false⟩, []), (⟨0, false⟩, [])], INVALID_PAGE_ID⟩)
        ⟨⟨0, 0⟩, ⟨0, 2⟩⟩).IsEnd = true) :=
  tableIterator_snapshot_stop _ ⟨⟨0, 0⟩, ⟨0, 2⟩⟩
    (Or.inr ⟨rfl, by decide⟩) (by decide)
    (fun h => absurd h (by decide)) (fun h => absurd h (by decide))

theorem startsWith_mock_dunder (name : List Char)
    (h : StringUtil.StartsWith name ['_', '_', 'm', 'o', 'c', 'k'] = true) :
    StringUtil.StartsWith name ['_', '_'] = true := by
  unfold StringUtil.StartsWith at h ⊢
  rw [List.isPrefixOf_iff_prefix] at h ⊢
  exact List.IsPrefix.trans ⟨['m', 'o', 'c', 'k'], rfl⟩ h

/-- C10: a base table whose catalog name starts with `__` but not with
`__mock` makes `PlanBaseTableRef` raise an exception (no plan node); a name
starting with `__mock` plans to a `MockScan` node; every other name plans to
a `SeqScan` node over the table's OID. -/
theorem planBaseTableRef_cases (t : TableInfo) :
    (StringUtil.StartsWith t.name ['_', '_'] = true →
      StringUtil.StartsWith t.name ['_', '_', 'm', 'o', 'c', 'k'] = false →
      Planner.PlanBaseTableRef t = .error (VdbError.Exception "unsupported internal table")) ∧
    (StringUtil.StartsWith t.name ['_', '_', 'm', 'o', 'c', 'k'] = true →
      Planner.PlanBaseTableRef t = .ok (BasePlan.MockScan t.name)) ∧
    (StringUtil.StartsWith t.name ['_', '_'] = false →
      Planner.PlanBaseTableRef t = .ok (BasePlan.SeqScan t.oid t.name)) := by
  refine ⟨?_, ?_, ?_⟩
  · intro h1 h2
    simp [Planner.PlanBaseTableRef, h1, h2]
  · intro h2
    have h1 := startsWith_mock_dunder t.name h2
    simp [Planner.PlanBaseTableRef, h1, h2]
  · intro h1
    simp [Planner.PlanBaseTableRef, h1]

/-- C10 witness: `__x` is rejected, `__mock1` plans to `MockScan`, `t1`
plans to `SeqScan` over its OID. -/
theorem planBaseTableRef_cases_witness :
    Planner.PlanBaseTableRef ⟨['_', '_', 'x'], 1⟩ =
      .error (VdbError.Exception "unsupported internal table") ∧
    Planner.PlanBaseTableRef ⟨['_', '_', 'm', 'o', 'c', 'k', '1'], 2⟩ =
      .ok (BasePlan.MockScan ['_', '_', 'm', 'o', 'c', 'k', '1']) ∧
    Planner.PlanBaseTableRef ⟨['t', '1'], 3⟩ = .ok (BasePlan.SeqScan 3 ['t', '1']) :=
  ⟨(planBaseTableRef_cases ⟨['_', '_', 'x'], 1⟩).1 (by decide) (by decide),
   (planBaseTableRef_cases ⟨['_', '_', 'm', 'o', 'c', 'k', '1'], 2⟩).2.1 (by decide),
   (planBaseTableRef_cases ⟨['t', '1'], 3⟩).2.2 (by decide)⟩

end VecDB
